import Mathlib

/-
Verification of the nmtui access-point merge engine and session state
machine, shallowly embedded from cmd/main.go and the gonetworkmanager
helper package of this repository.

Go maps with string keys are represented as association lists with
distinct keys; reading a missing key yields the empty string, as in Go.
Go map iteration order is unspecified, so everywhere the source ranges
over a map we parameterise by an enumeration list and quantify over
permutations of the canonical entry list.  Terminal styling (lipgloss)
is presentation only and is modeled as the identity on the text.
-/

namespace NMTui

/-- Go map[string]string as an association list. -/
abbrev FieldMap := List (String × String)

/-- Go map read: missing keys read as the empty string. -/
def mapGet (m : FieldMap) (k : String) : String :=
  match m.find? (fun p => p.1 == k) with
  | some p => p.2
  | none => ""

/-- Go map write: replace the binding for the key, or add one. -/
def mapSet (m : FieldMap) (k v : String) : FieldMap :=
  match m with
  | [] => [(k, v)]
  | p :: rest => if p.1 == k then (k, v) :: rest else p :: mapSet rest k v

-- nmcli field name constants from the gonetworkmanager package.

def nmcliFieldConnectionName : String := "NAME"

def nmcliFieldConnectionUUID : String := "UUID"

def nmcliFieldConnectionDevice : String := "DEVICE"

def nmcliFieldWifiSSID : String := "SSID"

def nmcliFieldWifiBSSID : String := "BSSID"

def nmcliFieldWifiSignal : String := "SIGNAL"

def nmcliFieldWifiSecurity : String := "SECURITY"

def eightZeroTwo11SSID : String := "802-11-wireless.ssid"

/-- Decimal digit run parser used to model strconv.Atoi: every
character must be a decimal digit. -/
def decDigits : List Char → Nat → Option Nat
  | [], acc => some acc
  | c :: cs, acc =>
      if c.isDigit then decDigits cs (acc * 10 + (c.toNat - 48)) else none

/-- Go strconv.Atoi with the error discarded: the source writes
signal, _ := strconv.Atoi(...), which leaves 0 on a parse failure.
An optional sign is followed by a non-empty digit run; integer overflow
does not arise for the values in this program. -/
def atoi (s : String) : Int :=
  match s.data with
  | [] => 0
  | '-' :: cs =>
      match if cs.isEmpty then none else decDigits cs 0 with
      | some n => -(n : Int)
      | none => 0
  | '+' :: cs =>
      match if cs.isEmpty then none else decDigits cs 0 with
      | some n => (n : Int)
      | none => 0
  | cs =>
      match decDigits cs 0 with
      | some n => (n : Int)
      | none => 0

/-- strings.ToLower, modeled on basic latin letters via Char.toLower. -/
def lowerString (s : String) : String := ⟨s.data.map Char.toLower⟩

/-- Go string comparison: lexicographic on the code units.  UTF-8 byte
order and code point order agree, so this is code point order. -/
def strLt (a b : String) : Bool := decide (a.data < b.data)

/-- The wifiAP struct of cmd/main.go: an embedded WifiAccessPoint field
map plus the known/active enrichment flags. -/
structure wifiAP where
  fields : FieldMap := []
  IsKnown : Bool := false
  IsActive : Bool := false
  Interface : String := ""
deriving DecidableEq, Repr

/-- wifiAP.SSID(): the SSID field, with the empty string and the nmcli
placeholder normalised to the empty string. -/
def wifiAP.SSID (ap : wifiAP) : String :=
  let ssid := mapGet ap.fields nmcliFieldWifiSSID
  if ssid = "" ∨ ssid = "--" then "" else ssid

/-- wifiAP.DisplaySSID(). -/
def wifiAP.DisplaySSID (ap : wifiAP) : String :=
  if ap.SSID = "" then "<Hidden Network>" else ap.SSID

/-- wifiAP.Signal(). -/
def wifiAP.Signal (ap : wifiAP) : Int :=
  atoi (mapGet ap.fields nmcliFieldWifiSignal)

/-- wifiAP.IsHidden(). -/
def wifiAP.IsHidden (ap : wifiAP) : Bool := ap.SSID == ""

/-- wifiAP.Security(). -/
def wifiAP.Security (ap : wifiAP) : String :=
  let sec := mapGet ap.fields nmcliFieldWifiSecurity
  if sec = "" ∨ sec = "--" then "Open" else sec

/-- wifiAP.IsOpen(). -/
def wifiAP.IsOpen (ap : wifiAP) : Bool :=
  let sec := lowerString ap.Security
  sec == "" || sec == "open" || sec == "--"

/-- The BSSID field of a scanned access point. -/
def wifiAP.bssid (ap : wifiAP) : String := mapGet ap.fields nmcliFieldWifiBSSID

abbrev ConnectionProfile := FieldMap

/-- GetSSIDFromProfile from the gonetworkmanager package. -/
def GetSSIDFromProfile (profile : ConnectionProfile) : String :=
  let ssid := mapGet profile nmcliFieldWifiSSID
  if ssid = "" then mapGet profile eightZeroTwo11SSID else ssid

/-- The SSID under which a profile is displayed and keyed: profile SSID
with the connection name as fallback.  This computation appears both in
connectionProfileToWifiAP and in fetchKnownNetworksCmd, which builds the
knownProfiles map keyed by exactly this string. -/
def profileSSIDName (profile : ConnectionProfile) : String :=
  let ssid := GetSSIDFromProfile profile
  if ssid = "" then mapGet profile nmcliFieldConnectionName else ssid

/-- connectionProfileToWifiAP from cmd/main.go. -/
def connectionProfileToWifiAP (profile : ConnectionProfile)
    (activeConn : Option ConnectionProfile) : wifiAP :=
  let ssid := profileSSIDName profile
  let apMap := mapSet profile nmcliFieldWifiSSID ssid
  let isActive :=
    match activeConn with
    | some ac =>
        mapGet profile nmcliFieldConnectionUUID == mapGet ac nmcliFieldConnectionUUID
    | none => false
  { fields := apMap, IsKnown := true, IsActive := isActive,
    Interface := mapGet profile nmcliFieldConnectionDevice }

-- ===========================================================================
-- Access point merge engine: getAllWifiItems of cmd/main.go
-- ===========================================================================

/-- The deduped map of getAllWifiItems, keyed by SSID or hidden key. -/
abbrev APMap := List (String × wifiAP)

def apmFind? (m : APMap) (k : String) : Option wifiAP :=
  (m.find? (fun p => p.1 == k)).map Prod.snd

def apmSet (m : APMap) (k : String) (v : wifiAP) : APMap :=
  match m with
  | [] => [(k, v)]
  | p :: rest => if p.1 == k then (k, v) :: rest else p :: apmSet rest k v

/-- The map key the source uses for hidden networks: "|" + BSSID. -/
def hiddenKey (bssid : String) : String := "|" ++ bssid

/-- One iteration of the dedup loop of getAllWifiItems. -/
def dedupStep (m : APMap) (ap : wifiAP) : APMap :=
  let ssid := ap.SSID
  if ssid = "" then
    apmSet m (hiddenKey ap.bssid) ap
  else
    match apmFind? m ssid with
    | some existing => if ap.Signal > existing.Signal then apmSet m ssid ap else m
    | none => apmSet m ssid ap

/-- The dedup loop of getAllWifiItems over the scanned slice. -/
def dedupScanned (scanned : List wifiAP) : APMap :=
  scanned.foldl dedupStep []

/-- The knownProfiles map, given as an enumeration of its entries. -/
abbrev KnownMap := List (String × ConnectionProfile)

def knownFind? (known : KnownMap) (s : String) : Option ConnectionProfile :=
  (known.find? (fun p => p.1 == s)).map Prod.snd

/-- One iteration of the known-profile injection loop of getAllWifiItems. -/
def addKnownStep (active : Option ConnectionProfile) (m : APMap)
    (e : String × ConnectionProfile) : APMap :=
  match apmFind? m e.1 with
  | some _ => m
  | none => apmSet m e.1 (connectionProfileToWifiAP e.2 active)

/-- The deduped map after both loops of getAllWifiItems, with the known
map ranged over in the order of the given enumeration. -/
def buildDeduped (scanned : List wifiAP) (known : KnownMap)
    (active : Option ConnectionProfile) : APMap :=
  known.foldl (addKnownStep active) (dedupScanned scanned)

/-- The known/active enrichment applied to each surviving entry in the
third loop of getAllWifiItems. -/
def enrich (known : KnownMap) (active : Option ConnectionProfile)
    (ap : wifiAP) : wifiAP :=
  if ap.SSID ≠ "" then
    match knownFind? known ap.SSID with
    | some profile =>
        let ap1 := { ap with IsKnown := true }
        match active with
        | some ac =>
            let isAct :=
              mapGet profile nmcliFieldConnectionUUID ==
                mapGet ac nmcliFieldConnectionUUID
            if isAct then
              { ap1 with
                IsActive := true
                Interface := mapGet profile nmcliFieldConnectionDevice }
            else { ap1 with IsActive := false }
        | none => ap1
    | none => ap
  else ap

/-- One iteration of the visibility-filter-and-enrich loop. -/
def processEntry (known : KnownMap) (active : Option ConnectionProfile)
    (showHidden : Bool) (ap : wifiAP) : Option wifiAP :=
  if !showHidden && ap.IsHidden then none
  else some (enrich known active ap)

/-- The comparison closure passed to sort.SliceStable in getAllWifiItems. -/
def apLess (a b : wifiAP) : Bool :=
  if a.IsActive != b.IsActive then a.IsActive
  else if a.IsKnown != b.IsKnown then a.IsKnown
  else if a.IsKnown && b.IsKnown &&
      (decide (a.Signal > 0) != decide (b.Signal > 0)) then decide (a.Signal > 0)
  else if a.Signal != b.Signal then decide (a.Signal > b.Signal)
  else if a.IsHidden != b.IsHidden then !a.IsHidden
  else strLt (lowerString a.DisplaySSID) (lowerString b.DisplaySSID)

/-- The non-strict order used to run the stable sort. -/
def apLe (a b : wifiAP) : Bool := !apLess b a

/-- sort.SliceStable with the apLess comparison, modeled by a stable
insertion sort: each element is inserted before the first element of the
already sorted suffix that is not strictly apLess than it, which is
exactly the stable-sort permutation determined by apLess. -/
def sortItems (items : List wifiAP) : List wifiAP :=
  List.insertionSort (fun a b => apLe a b = true) items

/-- getAllWifiItems after the deduped map has been built, iterating the
map in the order of the given enumeration. -/
def mergeWithEnum (known : KnownMap) (active : Option ConnectionProfile)
    (showHidden : Bool) (enum : List wifiAP) : List wifiAP :=
  sortItems (enum.filterMap (processEntry known active showHidden))

/-- The values of the deduped map in insertion order, one canonical
enumeration of the Go map. -/
def dedupedValues (scanned : List wifiAP) (known : KnownMap)
    (active : Option ConnectionProfile) : List wifiAP :=
  (buildDeduped scanned known active).map Prod.snd

/-- getAllWifiItems, run with the canonical enumeration. -/
def getAllWifiItems (scanned : List wifiAP) (known : KnownMap)
    (active : Option ConnectionProfile) (showHidden : Bool) : List wifiAP :=
  mergeWithEnum known active showHidden (dedupedValues scanned known active)

/-- strings.Contains, on code points. -/
def strContains (s sub : String) : Bool := decide (sub.data <:+: s.data)

/-- The text-filter pass of applyFilterAndUpdateList. -/
def applyFilter (filterQuery : String) (items : List wifiAP) : List wifiAP :=
  if filterQuery ≠ "" then
    items.filter (fun ap =>
      strContains (lowerString ap.DisplaySSID) (lowerString filterQuery))
  else items

/-- The full merge-and-filter pipeline of applyFilterAndUpdateList, for a
given enumeration of the deduped map. -/
def mergeAndFilter (known : KnownMap) (active : Option ConnectionProfile)
    (showHidden : Bool) (filterQuery : String) (enum : List wifiAP) : List wifiAP :=
  applyFilter filterQuery (mergeWithEnum known active showHidden enum)

-- ===========================================================================
-- Session state machine: the Update function of cmd/main.go, restricted to
-- the messages and key events the claims below exercise.  UI widget state
-- (lists, viewport, spinner, help) is presentation only and omitted; the
-- password text input is modeled by its value and focus flag.
-- ===========================================================================

inductive viewState
  | viewNetworksList
  | viewPasswordInput
  | viewConnecting
  | viewConnectionResult
  | viewActiveConnectionInfo
  | viewConfirmDisconnect
  | viewConfirmForget
  | viewKnownNetworksList
  | viewHiddenNetworkInput
  | viewConfirmOpenNetwork
deriving DecidableEq, Repr

structure Model where
  state : viewState := .viewNetworksList
  previousState : viewState := .viewNetworksList
  selectedAP : wifiAP := {}
  connectionStatusMsg : String := ""
  lastConnectionWasSuccessful : Bool := false
  isLoading : Bool := false
  isScanning : Bool := false
  isFiltering : Bool := false
  showHiddenNetworks : Bool := false
  passwordValue : String := ""
  passwordFocused : Bool := false
deriving DecidableEq, Repr

/-- Commands returned by Update, as inert tags; durations in seconds. -/
inductive Cmd
  | clearStatusAfter (seconds : Nat)
  | connectionTimeoutAfter (seconds : Nat) (ssid : String)
  | connectToWifi (ssid password : String) (knownNoPsk : Bool)
  | fetchKnownNetworks
  | fetchWifiNetworks (rescan : Bool)
  | spinnerTick
  | textinputBlink
deriving DecidableEq, Repr

def statusMsgTimeout : Nat := 3

def connectionTimeout : Nat := 30

/-- clearStatusAfterDelay of cmd/main.go: a tick that delivers
clearStatusMsg after statusMsgTimeout. -/
def clearStatusAfterDelay : Cmd := .clearStatusAfter statusMsgTimeout

/-- connectionTimeoutCmd of cmd/main.go: a tick that delivers
connectionTimeoutMsg for the given SSID after connectionTimeout. -/
def connectionTimeoutCmd (ssid : String) : Cmd :=
  .connectionTimeoutAfter connectionTimeout ssid

structure ConnectionAttemptMsg where
  ssid : String
  success : Bool
  err : Option String := none
  wasKnownAttemptNoPsk : Bool := false
deriving DecidableEq, Repr

/-- The events the verified claims exercise: the asynchronous messages
handled by Update, plus the Connect and Back keys and the hidden-network
toggle key.  keyConnect carries the currently selected list item. -/
inductive Ev
  | clearStatusMsg
  | connectionTimeoutMsg (ssid : String)
  | connectionAttemptMsg (msg : ConnectionAttemptMsg)
  | keyConnect (selectedItem : Option wifiAP)
  | keyBack
  | keyToggleHidden
deriving DecidableEq, Repr

/-- setStatus; lipgloss style rendering is the identity on the text. -/
def Model.setStatus (m : Model) (msg : String) : Model :=
  { m with connectionStatusMsg := msg }

def Model.clearStatus (m : Model) : Model :=
  { m with connectionStatusMsg := "" }

/-- initiateConnection of cmd/main.go. -/
def initiateConnection (m : Model) (ap : wifiAP) : Model × List Cmd :=
  if ap.IsActive then
    ({ m with state := .viewConfirmDisconnect }, [])
  else if ap.IsOpen && !ap.IsKnown then
    (({ m with state := .viewConfirmOpenNetwork }).clearStatus, [])
  else if ap.IsKnown || ap.IsOpen then
    (({ m with isLoading := true, state := .viewConnecting }).setStatus
       ("Connecting to " ++ ap.DisplaySSID ++ "..."),
     [.connectToWifi ap.SSID "" ap.IsKnown, connectionTimeoutCmd ap.SSID, .spinnerTick])
  else
    (({ m with
        state := .viewPasswordInput
        passwordValue := ""
        passwordFocused := true }).clearStatus,
     [.textinputBlink])

/-- handleNetworksListKeys, restricted to the modeled events.  The filter
sub-mode and the guard on a foreground load are kept; key events not
modeled leave the model unchanged. -/
def handleNetworksListKey (m : Model) (ev : Ev) : Model × List Cmd :=
  if m.isFiltering then (m, [])
  else if m.isLoading && !m.isScanning then (m, [])
  else
    match ev with
    | .keyToggleHidden =>
        let m1 := { m with showHiddenNetworks := !m.showHiddenNetworks }
        let m2 := m1.setStatus
          (if m1.showHiddenNetworks then "Showing unnamed networks"
           else "Hiding unnamed networks")
        (m2, [clearStatusAfterDelay])
    | .keyConnect (some item) => initiateConnection { m with selectedAP := item } item
    | _ => (m, [])

/-- handleKeyPress, restricted to the states and keys the claims touch;
key handling in the remaining states is not exercised by the claims. -/
def handleKeyPress (m : Model) (ev : Ev) : Model × List Cmd :=
  match m.state with
  | .viewNetworksList => handleNetworksListKey m ev
  | .viewConnectionResult =>
      match ev with
      | .keyConnect _ | .keyBack =>
          (({ m with state := .viewNetworksList }).clearStatus, [])
      | _ => (m, [])
  | _ => (m, [])

/-- The Update cases for clearStatusMsg, connectionTimeoutMsg and
connectionAttemptMsg, translated clause by clause, plus dispatch of key
events to handleKeyPress. -/
def update (m : Model) (ev : Ev) : Model × List Cmd :=
  match ev with
  | .clearStatusMsg =>
      if m.state = .viewNetworksList then (m.clearStatus, []) else (m, [])
  | .connectionTimeoutMsg ssid =>
      if m.state = .viewConnecting ∧ m.selectedAP.SSID = ssid then
        (({ m with
            isLoading := false
            state := .viewConnectionResult
            lastConnectionWasSuccessful := false }).setStatus
           ("Connection to " ++ ssid ++ " timed out"), [])
      else (m, [])
  | .connectionAttemptMsg msg =>
      let m1 := { m with isLoading := false }
      if msg.success then
        (({ m1 with
            state := .viewConnectionResult
            lastConnectionWasSuccessful := true }).setStatus
           ("Connected to " ++ m1.selectedAP.DisplaySSID ++ "!"),
         [.fetchKnownNetworks, .fetchWifiNetworks false])
      else if msg.wasKnownAttemptNoPsk && m1.selectedAP.SSID == msg.ssid then
        (({ m1 with
            state := .viewPasswordInput
            passwordValue := ""
            passwordFocused := true }).setStatus
           ("Stored credentials for " ++ m1.selectedAP.DisplaySSID ++
            " failed. Enter password:"),
         [.textinputBlink])
      else
        (({ m1 with
            state := .viewConnectionResult
            lastConnectionWasSuccessful := false }).setStatus
           ("Failed to connect to " ++ m1.selectedAP.DisplaySSID ++ ": " ++
            msg.err.getD "Unknown error"),
         [.fetchKnownNetworks, .fetchWifiNetworks false])
  | .keyConnect _ | .keyBack | .keyToggleHidden => handleKeyPress m ev

-- ===========================================================================
-- Specification-side helper definitions used to state the theorems.
-- ===========================================================================

/-- Combining step of the dedup loop for one SSID group: keep the entry
so far unless the new one has strictly greater signal. -/
def pickBestStep (o : Option wifiAP) (a : wifiAP) : Option wifiAP :=
  match o with
  | none => some a
  | some b => if a.Signal > b.Signal then some a else some b

/-- The entry the dedup loop keeps for an SSID group, folded over the
group in scan order, starting from an already-stored entry. -/
def pickBestFrom (o : Option wifiAP) (g : List wifiAP) : Option wifiAP :=
  g.foldl pickBestStep o

/-- The entry the hidden-network branch of the dedup loop keeps for one
BSSID: the last hidden AP of the scan with that BSSID. -/
def lastHiddenFrom (o : Option wifiAP) (l : List wifiAP) (bs : String) :
    Option wifiAP :=
  l.foldl (fun o a => if a.SSID = "" ∧ a.bssid = bs then some a else o) o

/-- The lexicographic sort key realised by the apLess comparison chain:
active first, known first, known-and-out-of-range last among known,
higher signal first, named before hidden, case-insensitive SSID. -/
abbrev SortKey :=
  Bool ×ₗ Bool ×ₗ Bool ×ₗ Int ×ₗ Bool ×ₗ String

def sortKey (a : wifiAP) : SortKey :=
  toLex (!a.IsActive,
    toLex (!a.IsKnown,
      toLex (a.IsKnown && !(decide (a.Signal > 0)),
        toLex (-a.Signal,
          toLex (a.IsHidden, lowerString a.DisplaySSID)))))

/-- Whether a profile has the UUID of the active connection, the test
used both in connectionProfileToWifiAP and in the enrichment loop. -/
def uuidMatches (p : ConnectionProfile) (active : Option ConnectionProfile) : Bool :=
  match active with
  | some ac =>
      mapGet p nmcliFieldConnectionUUID == mapGet ac nmcliFieldConnectionUUID
  | none => false

/-- Whether the known-map binding for a deduped-map key matches the
active connection. -/
def keyMatches (known : KnownMap) (active : Option ConnectionProfile)
    (k : String) : Bool :=
  match knownFind? known k with
  | some p => uuidMatches p active
  | none => false

-- ===========================================================================
-- Concrete fixtures used by the closed theorems below.
-- ===========================================================================

/-- Scanned AP "Home" with signal 40. -/
def homeA : wifiAP := { fields := [("SSID","Home"),("SIGNAL","40"),("BSSID","aa")] }

/-- Scanned AP "Home" with signal 75. -/
def homeB : wifiAP := { fields := [("SSID","Home"),("SIGNAL","75"),("BSSID","bb")] }

/-- A known profile "Office" that is not in radio range. -/
def officeProfile : ConnectionProfile := [("SSID","Office"),("UUID","u1")]

/-- Two hidden scanned APs with distinct BSSIDs and equal signal. -/
def tieHidden1 : wifiAP := { fields := [("SSID",""),("SIGNAL","50"),("BSSID","b1")] }

def tieHidden2 : wifiAP := { fields := [("SIGNAL","50"),("BSSID","b2")] }

/-- Scanned AP "Home" with signal 75 and a third BSSID, scanned later
than homeB. -/
def homeC : wifiAP := { fields := [("SSID","Home"),("SIGNAL","75"),("BSSID","cc")] }

/-- Two hidden scanned APs with no BSSID at all. -/
def noBssid1 : wifiAP := { fields := [("SIGNAL","10")] }

def noBssid2 : wifiAP := { fields := [("SIGNAL","90")] }

/-- A hidden scanned AP with BSSID "aa" and signal 90: its deduped-map
key is "|aa". -/
def collHidden90 : wifiAP := { fields := [("SSID",""),("SIGNAL","90"),("BSSID","aa")] }

/-- A hidden scanned AP with BSSID "aa" and signal 50. -/
def collHidden50 : wifiAP := { fields := [("SSID",""),("SIGNAL","50"),("BSSID","aa")] }

/-- A named scanned AP whose SSID "|aa" coincides with the hidden-network
map key of BSSID "aa", with signal 75. -/
def collNamed75 : wifiAP := { fields := [("SSID","|aa"),("SIGNAL","75")] }

/-- Fixtures for the sort-order test: active "A" with weak signal, known
"B" with strong signal, unknown "C" with the strongest signal. -/
def profA : ConnectionProfile := [("SSID","A"),("UUID","ua")]

def profB : ConnectionProfile := [("SSID","B"),("UUID","ub")]

def scanA : wifiAP := { fields := [("SSID","A"),("SIGNAL","10"),("SECURITY","WPA2")] }

def scanB : wifiAP := { fields := [("SSID","B"),("SIGNAL","90"),("SECURITY","WPA2")] }

def scanC : wifiAP := { fields := [("SSID","C"),("SIGNAL","95"),("SECURITY","WPA2")] }

/-- Two known profiles that both carry no UUID field, and an active
connection that also carries no UUID field. -/
def noUuidA : ConnectionProfile := [("SSID","A")]

def noUuidB : ConnectionProfile := [("SSID","B")]

def noUuidActive : ConnectionProfile := [("NAME","x")]

/-- A known, secured scanned AP with SSID "X". -/
def apX : wifiAP :=
  { fields := [("SSID","X"),("SECURITY","WPA2"),("SIGNAL","70")], IsKnown := true }

/-- A model that is in the Connecting state for apX. -/
def mConnectingX : Model :=
  { state := .viewConnecting, selectedAP := apX, isLoading := true }

/-- A model on the network list showing a transient status message whose
3-second clear timer is still pending. -/
def mOldStatus : Model :=
  { state := .viewNetworksList, connectionStatusMsg := "old status" }

-- ===========================================================================
-- Lemmas about the association-map operations
-- ===========================================================================

theorem apmFind?_apmSet_self (m : APMap) (k : String) (v : wifiAP) :
    apmFind? (apmSet m k v) k = some v := by
  induction m with
  | nil => simp [apmSet, apmFind?]
  | cons p rest ih =>
      by_cases h : p.1 = k
      · simp [apmSet, apmFind?, h]
      · simp only [apmSet, apmFind?] at ih ⊢
        rw [if_neg (by simpa using h)]
        rw [List.find?_cons_of_neg _ (by simpa using h)]
        exact ih

theorem apmFind?_apmSet_ne (m : APMap) (k k' : String) (v : wifiAP)
    (h : k ≠ k') : apmFind? (apmSet m k v) k' = apmFind? m k' := by
  induction m with
  | nil => simp [apmSet, apmFind?, h]
  | cons p rest ih =>
      by_cases hp : p.1 = k
      · simp only [apmSet, apmFind?]
        rw [if_pos (by simpa using hp)]
        rw [List.find?_cons_of_neg _ (by simpa using h),
          List.find?_cons_of_neg _ (by simp [hp ▸ h])]
      · simp only [apmSet, apmFind?] at ih ⊢
        rw [if_neg (by simpa using hp)]
        by_cases hq : p.1 = k'
        · rw [List.find?_cons_of_pos _ (by simpa using hq),
            List.find?_cons_of_pos _ (by simpa using hq)]
        · rw [List.find?_cons_of_neg _ (by simpa using hq),
            List.find?_cons_of_neg _ (by simpa using hq)]
          exact ih

theorem apmFind?_eq_none_iff (m : APMap) (k : String) :
    apmFind? m k = none ↔ k ∉ m.map Prod.fst := by
  induction m with
  | nil => simp [apmFind?]
  | cons p rest ih =>
      by_cases h : p.1 = k
      · simp [apmFind?, h]
      · simp only [apmFind?] at ih ⊢
        rw [List.find?_cons_of_neg _ (by simpa using h)]
        simp [ih, Ne.symm h]

theorem mem_apmSet (m : APMap) (k : String) (v : wifiAP) (e : String × wifiAP) :
    e ∈ apmSet m k v → e = (k, v) ∨ e ∈ m := by
  induction m with
  | nil =>
      intro he
      simpa [apmSet] using he
  | cons p rest ih =>
      intro he
      by_cases h : p.1 = k
      · rw [apmSet, if_pos (by simpa using h), List.mem_cons] at he
        rcases he with he | he
        · exact Or.inl he
        · exact Or.inr (List.mem_cons_of_mem _ he)
      · rw [apmSet, if_neg (by simpa using h), List.mem_cons] at he
        rcases he with he | he
        · exact Or.inr (he ▸ List.mem_cons_self _ _)
        · rcases ih he with h' | h'
          · exact Or.inl h'
          · exact Or.inr (List.mem_cons_of_mem _ h')

theorem apmSet_keys_of_none (m : APMap) (k : String) (v : wifiAP)
    (h : apmFind? m k = none) :
    (apmSet m k v).map Prod.fst = m.map Prod.fst ++ [k] := by
  induction m with
  | nil => simp [apmSet]
  | cons p rest ih =>
      by_cases hp : p.1 = k
      · exfalso
        simp [apmFind?, hp] at h
      · simp only [apmFind?] at h
        rw [List.find?_cons_of_neg _ (by simpa using hp)] at h
        rw [apmSet, if_neg (by simpa using hp)]
        simp [ih h]

theorem apmSet_keys_of_some (m : APMap) (k : String) (v w : wifiAP)
    (h : apmFind? m k = some w) :
    (apmSet m k v).map Prod.fst = m.map Prod.fst := by
  induction m with
  | nil => simp [apmFind?] at h
  | cons p rest ih =>
      by_cases hp : p.1 = k
      · rw [apmSet, if_pos (by simpa using hp)]
        simp [hp]
      · simp only [apmFind?] at h
        rw [List.find?_cons_of_neg _ (by simpa using hp)] at h
        rw [apmSet, if_neg (by simpa using hp)]
        simp [ih h]

theorem apmSet_keys_nodup (m : APMap) (k : String) (v : wifiAP)
    (h : (m.map Prod.fst).Nodup) : ((apmSet m k v).map Prod.fst).Nodup := by
  cases hf : apmFind? m k with
  | none =>
      rw [apmSet_keys_of_none m k v hf]
      have hk : k ∉ m.map Prod.fst := (apmFind?_eq_none_iff m k).mp hf
      rw [List.nodup_append]
      refine ⟨h, List.nodup_singleton k, ?_⟩
      intro a ha hb
      rw [List.mem_singleton] at hb
      exact hk (hb ▸ ha)
  | some w =>
      rw [apmSet_keys_of_some m k v w hf]
      exact h

-- ===========================================================================
-- Characterization of the dedup loop on named SSIDs
-- ===========================================================================

theorem dedupScanned_find_aux (l : List wifiAP) (acc : APMap) (s : String)
    (hs : s ≠ "")
    (hcol : ∀ ap ∈ l, ap.SSID = "" → hiddenKey ap.bssid ≠ s) :
    apmFind? (l.foldl dedupStep acc) s
      = pickBestFrom (apmFind? acc s) (l.filter (fun ap => ap.SSID == s)) := by
  induction l generalizing acc with
  | nil => simp [pickBestFrom]
  | cons a rest ih =>
      have hcolr : ∀ ap ∈ rest, ap.SSID = "" → hiddenKey ap.bssid ≠ s :=
        fun ap h => hcol ap (List.mem_cons_of_mem _ h)
      rw [List.foldl_cons]
      by_cases ha : a.SSID = ""
      · have hkey : hiddenKey a.bssid ≠ s := hcol a (List.mem_cons_self _ _) ha
        have hstep : dedupStep acc a = apmSet acc (hiddenKey a.bssid) a := by
          simp [dedupStep, ha]
        have hne : (a.SSID == s) = false := by
          simp [ha, Ne.symm hs]
        rw [hstep, ih _ hcolr, apmFind?_apmSet_ne _ _ _ _ hkey]
        simp [List.filter_cons, hne]
      · by_cases has : a.SSID = s
        · have hfc : (a :: rest).filter (fun ap => ap.SSID == s)
              = a :: rest.filter (fun ap => ap.SSID == s) := by
            simp [List.filter_cons, has]
          cases hf : apmFind? acc s with
          | none =>
              have hstep : dedupStep acc a = apmSet acc s a := by
                simp [dedupStep, has, hs, hf]
              rw [hstep, ih _ hcolr, apmFind?_apmSet_self, hfc]
              simp [pickBestFrom, pickBestStep]
          | some ex =>
              by_cases hsig : a.Signal > ex.Signal
              · have hstep : dedupStep acc a = apmSet acc s a := by
                  simp [dedupStep, has, hs, hf, hsig]
                rw [hstep, ih _ hcolr, apmFind?_apmSet_self, hfc]
                simp [pickBestFrom, pickBestStep, hsig]
              · have hstep : dedupStep acc a = acc := by
                  simp [dedupStep, has, hs, hf, hsig]
                rw [hstep, ih _ hcolr, hf, hfc]
                simp [pickBestFrom, pickBestStep, hsig]
        · have hnes : (a.SSID == s) = false := by simp [has]
          have hfind : apmFind? (dedupStep acc a) s = apmFind? acc s := by
            simp only [dedupStep]
            rw [if_neg ha]
            cases hfa : apmFind? acc a.SSID with
            | none => simpa using apmFind?_apmSet_ne _ _ _ _ has
            | some ex =>
                by_cases hsig : a.Signal > ex.Signal
                · simpa [hsig] using apmFind?_apmSet_ne _ _ _ _ has
                · simp [hsig]
          rw [ih _ hcolr, hfind]
          simp [List.filter_cons, hnes]

theorem pickBestFrom_mem (g : List wifiAP) :
    ∀ (o : Option wifiAP) (v : wifiAP),
      pickBestFrom o g = some v → o = some v ∨ v ∈ g := by
  induction g with
  | nil =>
      intro o v h
      exact Or.inl h
  | cons a rest ih =>
      intro o v h
      rw [pickBestFrom, List.foldl_cons] at h
      rcases ih _ _ h with h' | h'
      · cases o with
        | none =>
            simp [pickBestStep] at h'
            exact Or.inr (by simp [h'])
        | some b =>
            by_cases hs : a.Signal > b.Signal
            · simp [pickBestStep, hs] at h'
              exact Or.inr (by simp [h'])
            · simp [pickBestStep, hs] at h'
              exact Or.inl (by simp [h'])
      · exact Or.inr (List.mem_cons_of_mem _ h')

theorem pickBestFrom_max (g : List wifiAP) :
    ∀ (o : Option wifiAP) (v : wifiAP),
      pickBestFrom o g = some v →
      (∀ b, o = some b → b.Signal ≤ v.Signal) ∧ ∀ a ∈ g, a.Signal ≤ v.Signal := by
  induction g with
  | nil =>
      intro o v h
      refine ⟨fun b hb => ?_, by simp⟩
      have : o = some v := h
      rw [this] at hb
      cases hb
      exact le_refl _
  | cons a rest ih =>
      intro o v h
      rw [pickBestFrom, List.foldl_cons] at h
      have h2 := ih _ _ h
      constructor
      · intro b hb
        subst hb
        by_cases hs : a.Signal > b.Signal
        · have ha := h2.1 a (by simp [pickBestStep, hs])
          exact le_trans (le_of_lt hs) ha
        · exact h2.1 b (by simp [pickBestStep, hs])
      · intro x hx
        rcases List.mem_cons.mp hx with rfl | hx'
        · cases o with
          | none => exact h2.1 x (by simp [pickBestStep])
          | some b =>
              by_cases hs : x.Signal > b.Signal
              · exact h2.1 x (by simp [pickBestStep, hs])
              · have hb := h2.1 b (by simp [pickBestStep, hs])
                exact le_trans (by omega) hb
        · exact h2.2 x hx'

/-- C2 (amended): for every non-empty SSID s such that no scanned hidden
AP has hidden-network key "|" ++ BSSID equal to s, the dedup loop keeps
exactly the scan-order fold of the SSID group by strictly-greater
signal, so at most one entry per SSID survives, it belongs to the group,
and its signal is maximal in the group; concretely, merging two scanned
"Home" APs with signals 40 and 75 yields exactly one "Home" entry, with
signal 75.  The no-collision proviso is forced by the code: SSID keys
and hidden "|" ++ BSSID keys share one map, so a named AP whose SSID has
that shape contends with the hidden AP for a single entry and can be
dropped — see the separate counterexample. -/
theorem dedup_keeps_strongest :
    (∀ (scanned : List wifiAP) (s : String), s ≠ "" →
      (∀ ap ∈ scanned, ap.SSID = "" → hiddenKey ap.bssid ≠ s) →
      apmFind? (dedupScanned scanned) s
        = pickBestFrom none (scanned.filter (fun ap => ap.SSID == s))
      ∧ ∀ v, apmFind? (dedupScanned scanned) s = some v →
          v ∈ scanned ∧ v.SSID = s ∧
          ∀ ap ∈ scanned, ap.SSID = s → ap.Signal ≤ v.Signal)
    ∧ ((getAllWifiItems [homeA, homeB] [] none false).countP
          (fun ap => ap.SSID == "Home") = 1
       ∧ ∃ ap ∈ getAllWifiItems [homeA, homeB] [] none false,
           ap.SSID = "Home" ∧ ap.Signal = 75) := by
  constructor
  · intro scanned s hs hcol
    have hchar : apmFind? (dedupScanned scanned) s
        = pickBestFrom none (scanned.filter (fun ap => ap.SSID == s)) := by
      have h0 := dedupScanned_find_aux scanned [] s hs hcol
      simpa [apmFind?, dedupScanned] using h0
    refine ⟨hchar, ?_⟩
    intro v hv
    rw [hchar] at hv
    rcases pickBestFrom_mem _ _ _ hv with h' | h'
    · cases h'
    · have hin := List.mem_filter.mp h'
      refine ⟨hin.1, by simpa using hin.2, ?_⟩
      intro ap hap hssid
      exact (pickBestFrom_max _ _ _ hv).2 ap
        (List.mem_filter.mpr ⟨hap, by simp [hssid]⟩)
  · exact ⟨by decide, by decide⟩

/-- Witness: the characterization of dedup_keeps_strongest instantiated
at the concrete two-AP "Home" scan. -/
theorem dedup_keeps_strongest_witness :
    apmFind? (dedupScanned [homeA, homeB]) "Home"
      = pickBestFrom none ([homeA, homeB].filter (fun ap => ap.SSID == "Home"))
    ∧ apmFind? (dedupScanned [homeA, homeB]) "Home" = some homeB :=
  ⟨(dedup_keeps_strongest.1 [homeA, homeB] "Home" (by decide) (by decide)).1,
   by decide⟩

/-- C2 counterexample: the claim fails without the no-collision proviso,
because the code keeps SSID keys and hidden "|" ++ BSSID keys in one
shared map.  The scan below holds a hidden AP with BSSID "aa" and signal
90 followed by a named AP with the non-empty SSID "|aa" and signal 75:
the named AP lands on the key already held by the hidden AP, loses the
signal comparison, and is dropped, so the merged list — even with hidden
networks shown — contains zero entries with SSID "|aa" instead of
exactly one highest-signal entry. -/
theorem named_ssid_dropped_on_hidden_key_collision :
    collNamed75.SSID = "|aa"
    ∧ collNamed75.SSID = hiddenKey collHidden90.bssid
    ∧ (getAllWifiItems [collHidden90, collNamed75] [] none true).countP
        (fun ap => ap.SSID == "|aa") = 0
    ∧ getAllWifiItems [collHidden90, collNamed75] [] none true
        = [collHidden90] := by
  decide

/-- C10: appending a later scanned AP whose non-empty SSID is already in
the deduped map with an equal signal leaves the map unchanged: the
replacement test is a strict greater-than, so the earlier entry is kept. -/
theorem dedup_tie_keeps_earlier (l : List wifiAP) (b : wifiAP) (s : String)
    (v : wifiAP) (hb : b.SSID = s) (hs : s ≠ "")
    (hv : apmFind? (dedupScanned l) s = some v) (htie : b.Signal = v.Signal) :
    dedupScanned (l ++ [b]) = dedupScanned l
    ∧ apmFind? (dedupScanned (l ++ [b])) s = some v := by
  have hstep : dedupScanned (l ++ [b]) = dedupStep (dedupScanned l) b := by
    rw [dedupScanned, List.foldl_append]
    rfl
  have hns : dedupStep (dedupScanned l) b = dedupScanned l := by
    simp only [dedupStep]
    rw [hb, if_neg hs, hv]
    simp [htie]
  refine ⟨hstep.trans hns, ?_⟩
  rw [hstep.trans hns]
  exact hv

/-- Witness: a second equal-signal "Home" AP scanned after homeB does not
replace it. -/
theorem dedup_tie_keeps_earlier_witness :
    dedupScanned [homeB, homeC] = dedupScanned [homeB]
    ∧ apmFind? (dedupScanned [homeB, homeC]) "Home" = some homeB :=
  dedup_tie_keeps_earlier [homeB] homeC "Home" homeB (by decide) (by decide)
    (by decide) (by decide)

-- ===========================================================================
-- Known-profile injection (C3)
-- ===========================================================================

theorem mapGet_mapSet_self (m : FieldMap) (k v : String) :
    mapGet (mapSet m k v) k = v := by
  induction m with
  | nil => simp [mapSet, mapGet]
  | cons p rest ih =>
      by_cases h : p.1 = k
      · simp [mapSet, mapGet, h]
      · simp only [mapSet, mapGet] at ih ⊢
        rw [if_neg (by simpa using h)]
        rw [List.find?_cons_of_neg _ (by simpa using h)]
        exact ih

theorem mapGet_mapSet_ne (m : FieldMap) (k k' v : String) (h : k ≠ k') :
    mapGet (mapSet m k v) k' = mapGet m k' := by
  induction m with
  | nil => simp [mapSet, mapGet, h]
  | cons p rest ih =>
      by_cases hp : p.1 = k
      · simp only [mapSet, mapGet]
        rw [if_pos (by simpa using hp)]
        rw [List.find?_cons_of_neg _ (by simpa using h),
          List.find?_cons_of_neg _ (by simp [hp ▸ h])]
      · simp only [mapSet, mapGet] at ih ⊢
        rw [if_neg (by simpa using hp)]
        by_cases hq : p.1 = k'
        · rw [List.find?_cons_of_pos _ (by simpa using hq),
            List.find?_cons_of_pos _ (by simpa using hq)]
        · rw [List.find?_cons_of_neg _ (by simpa using hq),
            List.find?_cons_of_neg _ (by simpa using hq)]
          exact ih

theorem apmFind?_mem_values (m : APMap) (k : String) (v : wifiAP)
    (h : apmFind? m k = some v) : v ∈ m.map Prod.snd := by
  induction m with
  | nil => simp [apmFind?] at h
  | cons p rest ih =>
      by_cases hp : p.1 = k
      · simp [apmFind?, hp] at h
        simp [h]
      · simp only [apmFind?] at h
        rw [List.find?_cons_of_neg _ (by simpa using hp)] at h
        exact List.mem_cons_of_mem _ (ih h)

theorem addKnown_find_preserved (known : KnownMap)
    (active : Option ConnectionProfile) (s : String)
    (hnotin : s ∉ known.map Prod.fst) :
    ∀ m : APMap,
      apmFind? (known.foldl (addKnownStep active) m) s = apmFind? m s := by
  induction known with
  | nil => intro m; rfl
  | cons e rest ih =>
      intro m
      have hne : e.1 ≠ s := fun hq => hnotin (by simp [hq])
      have hnotin' : s ∉ rest.map Prod.fst := fun hq => hnotin (by simp [hq])
      have hstep : apmFind? (addKnownStep active m e) s = apmFind? m s := by
        simp only [addKnownStep]
        cases hq : apmFind? m e.1 with
        | some _ => rfl
        | none => exact apmFind?_apmSet_ne _ _ _ _ hne
      rw [List.foldl_cons, ih hnotin' _, hstep]

theorem addKnown_inserts (known : KnownMap)
    (active : Option ConnectionProfile) (s : String) (p : ConnectionProfile)
    (hnd : (known.map Prod.fst).Nodup) (hmem : (s, p) ∈ known) :
    ∀ m : APMap, apmFind? m s = none →
      apmFind? (known.foldl (addKnownStep active) m) s
        = some (connectionProfileToWifiAP p active) := by
  induction known with
  | nil => cases hmem
  | cons e rest ih =>
      intro m hm
      rw [List.map_cons, List.nodup_cons] at hnd
      rw [List.foldl_cons]
      rcases List.mem_cons.mp hmem with he | hmem'
      · have hkey : e.1 = s := by rw [← he]
        have hstep : addKnownStep active m e
            = apmSet m s (connectionProfileToWifiAP p active) := by
          rw [← he]
          simp [addKnownStep, hm]
        have hs_not : s ∉ rest.map Prod.fst := hkey ▸ hnd.1
        rw [hstep, addKnown_find_preserved rest active s hs_not _]
        exact apmFind?_apmSet_self _ _ _
      · have hne : e.1 ≠ s := by
          intro hq
          exact hnd.1 (hq ▸ List.mem_map.mpr ⟨(s, p), hmem', rfl⟩)
        have hm' : apmFind? (addKnownStep active m e) s = none := by
          simp only [addKnownStep]
          cases hq : apmFind? m e.1 with
          | some _ => exact hm
          | none => rw [apmFind?_apmSet_ne _ _ _ _ hne]; exact hm
        exact ih hnd.2 hmem' _ hm'

theorem enrich_fields (known : KnownMap) (active : Option ConnectionProfile)
    (ap : wifiAP) : (enrich known active ap).fields = ap.fields := by
  unfold enrich
  by_cases h : ap.SSID = ""
  · simp [h]
  · rw [if_pos h]
    cases hk : knownFind? known ap.SSID with
    | none => rfl
    | some p =>
        cases active with
        | none => rfl
        | some ac =>
            by_cases hact : (mapGet p nmcliFieldConnectionUUID ==
                mapGet ac nmcliFieldConnectionUUID) = true
            · simp [hact]
            · simp [hact]

theorem enrich_IsKnown (known : KnownMap) (active : Option ConnectionProfile)
    (ap : wifiAP) (h : ap.IsKnown = true) :
    (enrich known active ap).IsKnown = true := by
  unfold enrich
  by_cases hs : ap.SSID = ""
  · simpa [hs] using h
  · rw [if_pos hs]
    cases hk : knownFind? known ap.SSID with
    | none => exact h
    | some p =>
        cases active with
        | none => rfl
        | some ac =>
            by_cases hact : (mapGet p nmcliFieldConnectionUUID ==
                mapGet ac nmcliFieldConnectionUUID) = true
            · simp [hact]
            · simp [hact]

theorem enrich_Signal (known : KnownMap) (active : Option ConnectionProfile)
    (ap : wifiAP) : (enrich known active ap).Signal = ap.Signal := by
  simp [wifiAP.Signal, enrich_fields]

/-- C3: for a known profile bound to key s in the known map (the key is
the profile display SSID, and keys are distinct), if s is absent from the
deduped scan map and the synthesized entry is not suppressed as hidden,
then the merged output contains an entry whose SSID field is s, whose
signal is 0 (the profile carries no SIGNAL field) and which is marked
known. -/
theorem known_out_of_range_preserved (scanned : List wifiAP)
    (known : KnownMap) (active : Option ConnectionProfile) (showHidden : Bool)
    (s : String) (p : ConnectionProfile) (enum : List wifiAP)
    (hnd : (known.map Prod.fst).Nodup) (hmem : (s, p) ∈ known)
    (hkey : profileSSIDName p = s)
    (hscan : apmFind? (dedupScanned scanned) s = none)
    (hsig : mapGet p nmcliFieldWifiSignal = "")
    (hvis : showHidden = true ∨ (connectionProfileToWifiAP p active).IsHidden = false)
    (hperm : enum.Perm (dedupedValues scanned known active)) :
    ∃ ap ∈ mergeWithEnum known active showHidden enum,
      mapGet ap.fields nmcliFieldWifiSSID = s
      ∧ ap.Signal = 0 ∧ ap.IsKnown = true := by
  set synth := connectionProfileToWifiAP p active with hsynth
  have hfind : apmFind? (buildDeduped scanned known active) s = some synth :=
    addKnown_inserts known active s p hnd hmem (dedupScanned scanned) hscan
  have hval : synth ∈ dedupedValues scanned known active :=
    apmFind?_mem_values _ _ _ hfind
  have henum : synth ∈ enum := hperm.symm.subset hval
  have hpe : processEntry known active showHidden synth
      = some (enrich known active synth) := by
    rcases hvis with hv | hv
    · simp [processEntry, hv]
    · simp [processEntry, hv]
  have hfm : enrich known active synth
      ∈ enum.filterMap (processEntry known active showHidden) :=
    List.mem_filterMap.mpr ⟨synth, henum, hpe⟩
  have hsorted : enrich known active synth ∈ mergeWithEnum known active showHidden enum := by
    unfold mergeWithEnum sortItems
    exact (List.perm_insertionSort _ _).mem_iff.mpr hfm
  refine ⟨enrich known active synth, hsorted, ?_, ?_, ?_⟩
  · rw [enrich_fields]
    have : synth.fields = mapSet p nmcliFieldWifiSSID (profileSSIDName p) := rfl
    rw [this, hkey, mapGet_mapSet_self]
  · rw [enrich_Signal]
    have : synth.Signal = atoi (mapGet (mapSet p nmcliFieldWifiSSID
        (profileSSIDName p)) nmcliFieldWifiSignal) := rfl
    rw [this, mapGet_mapSet_ne _ _ _ _ (by decide), hsig]
    rfl
  · exact enrich_IsKnown _ _ _ rfl

/-- Witness: the out-of-range known profile "Office" appears in the
merged output with signal 0 and the known mark, with an empty scan and
hidden networks suppressed. -/
theorem known_out_of_range_preserved_witness :
    ∃ ap ∈ mergeWithEnum [("Office", officeProfile)] none false
        (dedupedValues [] [("Office", officeProfile)] none),
      mapGet ap.fields nmcliFieldWifiSSID = "Office"
      ∧ ap.Signal = 0 ∧ ap.IsKnown = true :=
  known_out_of_range_preserved [] [("Office", officeProfile)] none false
    "Office" officeProfile (dedupedValues [] [("Office", officeProfile)] none)
    (by decide) (by decide) (by decide) (by decide) (by decide)
    (Or.inr (by decide)) (List.Perm.refl _)

-- ===========================================================================
-- Merge determinism (C1) and hidden-network deduplication (C5)
-- ===========================================================================

/-- C1 (amended): the merged output is a function of the inputs together
with the iteration order of the deduped map: permuting the enumeration
permutes the output, so any two runs always display the same multiset of
entries; but the final ordering is not independent of the map iteration
order, because the comparison chain admits ties — see the separate
counterexample with two equal-signal hidden APs, whose order the stable
sort takes from the (unspecified) map enumeration order. -/
theorem merge_perm_of_enum_perm (known : KnownMap)
    (active : Option ConnectionProfile) (showHidden : Bool) (q : String)
    (enum1 enum2 : List wifiAP) (hperm : enum1.Perm enum2) :
    (mergeAndFilter known active showHidden q enum1).Perm
      (mergeAndFilter known active showHidden q enum2) := by
  have h1 : (enum1.filterMap (processEntry known active showHidden)).Perm
      (enum2.filterMap (processEntry known active showHidden)) :=
    hperm.filterMap _
  have h2 : (sortItems (enum1.filterMap (processEntry known active showHidden))).Perm
      (sortItems (enum2.filterMap (processEntry known active showHidden))) :=
    ((List.perm_insertionSort _ _).trans h1).trans
      (List.perm_insertionSort _ _).symm
  by_cases hq : q = ""
  · simpa [mergeAndFilter, applyFilter, hq, mergeWithEnum] using h2
  · simpa [mergeAndFilter, applyFilter, hq, mergeWithEnum] using h2.filter _

/-- Witness: two enumerations of the deduped map built from the two
equal-signal hidden APs produce outputs that are permutations of each
other. -/
theorem merge_perm_of_enum_perm_witness :
    (mergeAndFilter [] none true "" [tieHidden1, tieHidden2]).Perm
      (mergeAndFilter [] none true "" [tieHidden2, tieHidden1]) :=
  merge_perm_of_enum_perm [] none true "" [tieHidden1, tieHidden2]
    [tieHidden2, tieHidden1] (by decide)

/-- C1 counterexample: the two hidden scanned APs below have equal
signal and the same hidden display SSID, so the comparison chain ties;
the list [tieHidden2, tieHidden1] is a permutation of the canonical
enumeration of the deduped map, i.e. another admissible Go map iteration
order, and running the merge over the two enumerations yields different
ordered outputs: the ordering depends on map iteration order and the
sort is not a total order with SSID as a final tiebreaker. -/
theorem merge_order_depends_on_map_iteration :
    List.Perm [tieHidden2, tieHidden1]
      (dedupedValues [tieHidden1, tieHidden2] [] none)
    ∧ mergeAndFilter [] none true ""
        (dedupedValues [tieHidden1, tieHidden2] [] none)
      ≠ mergeAndFilter [] none true "" [tieHidden2, tieHidden1] := by
  decide

theorem hiddenKey_inj {x y : String} (h : hiddenKey x = hiddenKey y) : x = y := by
  have hd : x.data = y.data := by
    have hq := congrArg String.data h
    simpa [hiddenKey] using hq
  exact String.toList_inj.mp hd

theorem dedupScanned_hidden_aux (l : List wifiAP) (acc : APMap) (bs : String)
    (hcol : ∀ ap ∈ l, ap.SSID ≠ "" → ap.SSID ≠ hiddenKey bs) :
    apmFind? (l.foldl dedupStep acc) (hiddenKey bs)
      = lastHiddenFrom (apmFind? acc (hiddenKey bs)) l bs := by
  induction l generalizing acc with
  | nil => simp [lastHiddenFrom]
  | cons a rest ih =>
      have hcolr : ∀ ap ∈ rest, ap.SSID ≠ "" → ap.SSID ≠ hiddenKey bs :=
        fun ap h => hcol ap (List.mem_cons_of_mem _ h)
      rw [List.foldl_cons]
      by_cases ha : a.SSID = ""
      · by_cases hb : a.bssid = bs
        · have hstep : dedupStep acc a = apmSet acc (hiddenKey bs) a := by
            simp [dedupStep, ha, hb]
          rw [hstep, ih _ hcolr, apmFind?_apmSet_self]
          simp [lastHiddenFrom, ha, hb]
        · have hkeys : hiddenKey a.bssid ≠ hiddenKey bs :=
            fun hk => hb (hiddenKey_inj hk)
          have hstep : dedupStep acc a = apmSet acc (hiddenKey a.bssid) a := by
            simp [dedupStep, ha]
          rw [hstep, ih _ hcolr, apmFind?_apmSet_ne _ _ _ _ hkeys]
          simp [lastHiddenFrom, hb]
      · have hkey : a.SSID ≠ hiddenKey bs := hcol a (List.mem_cons_self _ _) ha
        have hfind : apmFind? (dedupStep acc a) (hiddenKey bs)
            = apmFind? acc (hiddenKey bs) := by
          simp only [dedupStep]
          rw [if_neg ha]
          cases hfa : apmFind? acc a.SSID with
          | none => simpa using apmFind?_apmSet_ne _ _ _ _ hkey
          | some ex =>
              by_cases hsig : a.Signal > ex.Signal
              · simpa [hsig] using apmFind?_apmSet_ne _ _ _ _ hkey
              · simp [hsig]
        rw [ih _ hcolr, hfind]
        simp [lastHiddenFrom, ha]

theorem lastHiddenFrom_eq_find (l : List wifiAP) (bs : String) :
    ∀ o : Option wifiAP,
      lastHiddenFrom o l bs
        = match l.reverse.find? (fun ap => ap.IsHidden && (ap.bssid == bs)) with
          | some v => some v
          | none => o := by
  induction l with
  | nil =>
      intro o
      simp [lastHiddenFrom]
  | cons a rest ih =>
      intro o
      have hstep : lastHiddenFrom o (a :: rest) bs
          = lastHiddenFrom (if a.SSID = "" ∧ a.bssid = bs then some a else o)
              rest bs := by
        simp [lastHiddenFrom]
      rw [hstep, ih]
      have hrev : (a :: rest).reverse = rest.reverse ++ [a] := by simp
      rw [hrev, List.find?_append]
      cases hr : rest.reverse.find? (fun ap => ap.IsHidden && (ap.bssid == bs)) with
      | some v => simp
      | none =>
          by_cases hc : a.SSID = "" ∧ a.bssid = bs
          · simp [hc, List.find?_cons, wifiAP.IsHidden, Option.or]
          · have : (a.IsHidden && (a.bssid == bs)) = false := by
              rcases (not_and_or.mp hc) with h | h <;>
                simp [wifiAP.IsHidden, h]
            simp [hc, List.find?_cons, this, Option.or]

/-- C5 (amended): a scanned AP with empty SSID is never deduplicated by
SSID: it is stored under the key "|" ++ BSSID, distinct BSSIDs give
distinct keys, and — provided no named AP of the scan has an SSID equal
to that key — the entry kept for the key is the most recently scanned
hidden AP with that BSSID, an unconditional overwrite rather than a
best-signal choice.  Two hidden APs therefore collapse exactly when
their BSSID strings are equal; there is no synthetic ordinal, so all
hidden APs whose BSSID is absent share the key "|" and collapse into
one.  The proviso is forced by the code, which keeps SSID keys and
hidden keys in one shared map: a named AP whose SSID is "|" ++ BSSID of
a scanned hidden AP contends with it for a single entry and can evict
it — both the ordinal-free collapse and the eviction are in the
separate counterexample. -/
theorem hidden_dedup_by_bssid :
    (∀ (l : List wifiAP) (bs : String),
      (∀ ap ∈ l, ap.SSID ≠ "" → ap.SSID ≠ hiddenKey bs) →
      apmFind? (dedupScanned l) (hiddenKey bs)
        = l.reverse.find? (fun ap => ap.IsHidden && (ap.bssid == bs)))
    ∧ ∀ bs1 bs2 : String, hiddenKey bs1 = hiddenKey bs2 ↔ bs1 = bs2 := by
  constructor
  · intro l bs hcol
    have h0 := dedupScanned_hidden_aux l [] bs hcol
    have h1 := lastHiddenFrom_eq_find l bs none
    have h2 : apmFind? ([] : APMap) (hiddenKey bs) = none := rfl
    rw [dedupScanned, h0, h2, h1]
    cases l.reverse.find? (fun ap => ap.IsHidden && (ap.bssid == bs)) <;> rfl
  · intro bs1 bs2
    exact ⟨hiddenKey_inj, fun h => h ▸ rfl⟩

/-- Witness: in a scan holding the two distinct-BSSID hidden APs, the
key of BSSID "b1" holds exactly the hidden AP with BSSID "b1". -/
theorem hidden_dedup_by_bssid_witness :
    apmFind? (dedupScanned [tieHidden1, tieHidden2]) (hiddenKey "b1")
      = ([tieHidden1, tieHidden2].reverse).find?
          (fun ap => ap.IsHidden && (ap.bssid == "b1"))
    ∧ apmFind? (dedupScanned [tieHidden1, tieHidden2]) (hiddenKey "b1")
      = some tieHidden1 :=
  ⟨hidden_dedup_by_bssid.1 [tieHidden1, tieHidden2] "b1" (by decide), by decide⟩

/-- C5 counterexample: the claim fails in two ways.  First, two distinct
hidden scanned APs that both lack a BSSID are not kept as distinct
entries — there is no synthetic ordinal; they share the key "|" and
collapse into a single merged entry, the later one.  Second, a hidden AP
can collapse with a NAMED AP whose SSID spells its hidden key: after the
hidden AP with BSSID "aa" and signal 50, the named AP "|aa" with signal
75 wins the shared entry, and the hidden AP vanishes from the merged
list even with hidden networks shown — a hidden AP is not kept distinct
per BSSID unconditionally. -/
theorem hidden_absent_bssid_collapse :
    (noBssid1 ≠ noBssid2
     ∧ noBssid1.IsHidden = true ∧ noBssid2.IsHidden = true
     ∧ noBssid1.bssid = "" ∧ noBssid2.bssid = ""
     ∧ (getAllWifiItems [noBssid1, noBssid2] [] none true).length = 1
     ∧ getAllWifiItems [noBssid1, noBssid2] [] none true = [noBssid2])
    ∧ (collHidden50.IsHidden = true
       ∧ collNamed75.SSID = hiddenKey collHidden50.bssid
       ∧ (getAllWifiItems [collHidden50, collNamed75] [] none true).countP
           (fun ap => ap.IsHidden) = 0
       ∧ getAllWifiItems [collHidden50, collNamed75] [] none true
           = [collNamed75]) := by
  decide

-- ===========================================================================
-- At most one active entry (C6): structural lemmas
-- ===========================================================================

theorem dedupStep_keys_nodup (m : APMap) (a : wifiAP)
    (h : (m.map Prod.fst).Nodup) : ((dedupStep m a).map Prod.fst).Nodup := by
  unfold dedupStep
  by_cases ha : a.SSID = ""
  · rw [if_pos ha]
    exact apmSet_keys_nodup _ _ _ h
  · rw [if_neg ha]
    cases hf : apmFind? m a.SSID with
    | none => exact apmSet_keys_nodup _ _ _ h
    | some ex =>
        by_cases hs : a.Signal > ex.Signal
        · simpa [hs] using apmSet_keys_nodup m a.SSID a h
        · simpa [hs] using h

theorem foldl_dedupStep_keys_nodup (l : List wifiAP) :
    ∀ acc : APMap, (acc.map Prod.fst).Nodup →
      ((l.foldl dedupStep acc).map Prod.fst).Nodup := by
  induction l with
  | nil => intro acc h; exact h
  | cons a rest ih =>
      intro acc h
      rw [List.foldl_cons]
      exact ih _ (dedupStep_keys_nodup _ _ h)

theorem addKnownStep_keys_nodup (m : APMap) (kp : String × ConnectionProfile)
    (active : Option ConnectionProfile) (h : (m.map Prod.fst).Nodup) :
    ((addKnownStep active m kp).map Prod.fst).Nodup := by
  unfold addKnownStep
  cases hf : apmFind? m kp.1 with
  | some _ => exact h
  | none => exact apmSet_keys_nodup _ _ _ h

theorem foldl_addKnown_keys_nodup (known : KnownMap)
    (active : Option ConnectionProfile) :
    ∀ acc : APMap, (acc.map Prod.fst).Nodup →
      ((known.foldl (addKnownStep active) acc).map Prod.fst).Nodup := by
  induction known with
  | nil => intro acc h; exact h
  | cons kp rest ih =>
      intro acc h
      rw [List.foldl_cons]
      exact ih _ (addKnownStep_keys_nodup _ _ _ h)

theorem buildDeduped_keys_nodup (scanned : List wifiAP) (known : KnownMap)
    (active : Option ConnectionProfile) :
    ((buildDeduped scanned known active).map Prod.fst).Nodup := by
  unfold buildDeduped
  exact foldl_addKnown_keys_nodup known active _
    (foldl_dedupStep_keys_nodup scanned [] (by simp))

theorem mem_dedupStep (m : APMap) (a : wifiAP) (e : String × wifiAP)
    (he : e ∈ dedupStep m a) :
    e ∈ m ∨ (e.2 = a ∧ (a.SSID = "" ∨ e.1 = a.SSID)) := by
  unfold dedupStep at he
  by_cases ha : a.SSID = ""
  · rw [if_pos ha] at he
    rcases mem_apmSet _ _ _ _ he with h | h
    · exact Or.inr (by rw [h]; exact ⟨rfl, Or.inl ha⟩)
    · exact Or.inl h
  · rw [if_neg ha] at he
    split at he
    · split at he
      · rcases mem_apmSet _ _ _ _ he with h | h
        · exact Or.inr (by rw [h]; exact ⟨rfl, Or.inr rfl⟩)
        · exact Or.inl h
      · exact Or.inl he
    · rcases mem_apmSet _ _ _ _ he with h | h
      · exact Or.inr (by rw [h]; exact ⟨rfl, Or.inr rfl⟩)
      · exact Or.inl h

theorem mem_foldl_dedupStep (l : List wifiAP) :
    ∀ (acc : APMap) (e : String × wifiAP), e ∈ l.foldl dedupStep acc →
      e ∈ acc ∨ ∃ a ∈ l, e.2 = a ∧ (a.SSID = "" ∨ e.1 = a.SSID) := by
  induction l with
  | nil => intro acc e he; exact Or.inl he
  | cons a rest ih =>
      intro acc e he
      rw [List.foldl_cons] at he
      rcases ih _ _ he with h | ⟨b, hb, hprop⟩
      · rcases mem_dedupStep _ _ _ h with h' | h'
        · exact Or.inl h'
        · exact Or.inr ⟨a, List.mem_cons_self _ _, h'⟩
      · exact Or.inr ⟨b, List.mem_cons_of_mem _ hb, hprop⟩

theorem mem_addKnownStep (m : APMap) (kp : String × ConnectionProfile)
    (active : Option ConnectionProfile) (e : String × wifiAP)
    (he : e ∈ addKnownStep active m kp) :
    e ∈ m ∨ e = (kp.1, connectionProfileToWifiAP kp.2 active) := by
  unfold addKnownStep at he
  split at he
  · exact Or.inl he
  · rcases mem_apmSet _ _ _ _ he with h | h
    · exact Or.inr h
    · exact Or.inl h

theorem mem_foldl_addKnown (known : KnownMap) (active : Option ConnectionProfile) :
    ∀ (acc : APMap) (e : String × wifiAP),
      e ∈ known.foldl (addKnownStep active) acc →
      e ∈ acc ∨ ∃ kp ∈ known, e = (kp.1, connectionProfileToWifiAP kp.2 active) := by
  induction known with
  | nil => intro acc e he; exact Or.inl he
  | cons kp rest ih =>
      intro acc e he
      rw [List.foldl_cons] at he
      rcases ih _ _ he with h | ⟨kq, hkq, hprop⟩
      · rcases mem_addKnownStep _ _ _ _ h with h' | h'
        · exact Or.inl h'
        · exact Or.inr ⟨kp, List.mem_cons_self _ _, h'⟩
      · exact Or.inr ⟨kq, List.mem_cons_of_mem _ hkq, hprop⟩

theorem knownFind?_of_mem_nodup (known : KnownMap) (s : String)
    (p : ConnectionProfile) (hnd : (known.map Prod.fst).Nodup)
    (hmem : (s, p) ∈ known) : knownFind? known s = some p := by
  induction known with
  | nil => cases hmem
  | cons e rest ih =>
      rw [List.map_cons, List.nodup_cons] at hnd
      rcases List.mem_cons.mp hmem with he | hmem'
      · rw [← he]
        simp [knownFind?]
      · have hne : ¬ ((fun q : String × ConnectionProfile => q.1 == s) e) = true := by
          simp only [beq_iff_eq]
          intro hq
          exact hnd.1 (hq ▸ List.mem_map.mpr ⟨(s, p), hmem', rfl⟩)
        simp only [knownFind?]
        rw [show List.find? (fun q : String × ConnectionProfile => q.1 == s) (e :: rest)
              = List.find? (fun q : String × ConnectionProfile => q.1 == s) rest from
            List.find?_cons_of_neg _ hne]
        exact ih hnd.2 hmem'

theorem knownFind?_mem_pairs (known : KnownMap) (s : String)
    (p : ConnectionProfile) (h : knownFind? known s = some p) :
    (s, p) ∈ known := by
  induction known with
  | nil => simp [knownFind?] at h
  | cons e rest ih =>
      by_cases hp : e.1 = s
      · simp only [knownFind?] at h
        rw [List.find?_cons_of_pos _ (by simpa using hp)] at h
        have hep : e.2 = p := by simpa using h
        have he : e = (s, p) := by
          rcases e with ⟨e1, e2⟩
          simp only at hp hep
          rw [hp, hep]
        rw [he]
        exact List.mem_cons_self _ _
      · simp only [knownFind?] at h
        rw [List.find?_cons_of_neg _ (by simpa using hp)] at h
        exact List.mem_cons_of_mem _ (ih h)

theorem enrich_of_hidden (known : KnownMap) (active : Option ConnectionProfile)
    (v : wifiAP) (h : v.SSID = "") : enrich known active v = v := by
  simp [enrich, h]

theorem enrich_of_not_found (known : KnownMap) (active : Option ConnectionProfile)
    (v : wifiAP) (h : knownFind? known v.SSID = none) :
    enrich known active v = v := by
  by_cases hs : v.SSID = ""
  · simp [enrich, hs]
  · simp [enrich, hs, h]

theorem enrich_IsActive_found_none (known : KnownMap) (v : wifiAP)
    (p : ConnectionProfile) (hne : ¬ v.SSID = "")
    (hfind : knownFind? known v.SSID = some p) :
    (enrich known none v).IsActive = v.IsActive := by
  unfold enrich
  rw [if_pos hne, hfind]

theorem enrich_IsActive_found_some (known : KnownMap) (ac : ConnectionProfile)
    (v : wifiAP) (p : ConnectionProfile) (hne : ¬ v.SSID = "")
    (hfind : knownFind? known v.SSID = some p) :
    (enrich known (some ac) v).IsActive
      = (mapGet p nmcliFieldConnectionUUID == mapGet ac nmcliFieldConnectionUUID) := by
  unfold enrich
  rw [if_pos hne, hfind]
  cases h : (mapGet p nmcliFieldConnectionUUID == mapGet ac nmcliFieldConnectionUUID) with
  | true => simp [h]
  | false => simp [h]

theorem synth_fields_ssid (p : ConnectionProfile) (active : Option ConnectionProfile) :
    mapGet (connectionProfileToWifiAP p active).fields nmcliFieldWifiSSID
      = profileSSIDName p := by
  unfold connectionProfileToWifiAP
  exact mapGet_mapSet_self _ _ _

theorem synth_SSID (p : ConnectionProfile) (active : Option ConnectionProfile) :
    (connectionProfileToWifiAP p active).SSID
      = (if profileSSIDName p = "" ∨ profileSSIDName p = "--" then ""
         else profileSSIDName p) := by
  unfold wifiAP.SSID
  rw [synth_fields_ssid]

theorem synth_IsActive (p : ConnectionProfile) (active : Option ConnectionProfile) :
    (connectionProfileToWifiAP p active).IsActive = uuidMatches p active := by
  cases active <;> rfl

theorem countP_filterMap_le {α β : Type} (f : α → Option β) (pr : β → Bool)
    (q : α → Bool) (h : ∀ a b, f a = some b → pr b = true → q a = true) :
    ∀ l : List α, (l.filterMap f).countP pr ≤ l.countP q := by
  intro l
  induction l with
  | nil => simp
  | cons a rest ih =>
      rw [List.filterMap_cons]
      cases hf : f a with
      | none =>
          rw [List.countP_cons]
          exact le_trans ih (Nat.le_add_right _ _)
      | some b =>
          rw [List.countP_cons, List.countP_cons]
          by_cases hb : pr b = true
          · have hq := h a b hf hb
            simp [hb, hq]
            omega
          · have hb' : pr b = false := by
              cases hpb : pr b
              · rfl
              · exact absurd hpb hb
            simp [hb']
            omega

theorem entry_active_imp (scanned : List wifiAP) (known : KnownMap)
    (active : Option ConnectionProfile)
    (hscan : ∀ ap ∈ scanned, ap.IsActive = false)
    (hnd : (known.map Prod.fst).Nodup)
    (hkeys : ∀ e ∈ known, profileSSIDName e.2 = e.1) :
    ∀ e ∈ buildDeduped scanned known active,
      (enrich known active e.2).IsActive = true →
      keyMatches known active e.1 = true := by
  intro e he hact
  rcases mem_foldl_addKnown known active _ e he with hscanned | ⟨kp, hkp, rfl⟩
  · rcases mem_foldl_dedupStep scanned _ e hscanned with hnil | ⟨a, ha, hav, hprop⟩
    · simp at hnil
    · have hfalse : e.2.IsActive = false := hav ▸ hscan a ha
      by_cases hss : e.2.SSID = ""
      · rw [enrich_of_hidden _ _ _ hss, hfalse] at hact
        cases hact
      · cases hfind : knownFind? known e.2.SSID with
        | none =>
            rw [enrich_of_not_found _ _ _ hfind, hfalse] at hact
            cases hact
        | some p =>
            have hkeyeq : e.1 = e.2.SSID := by
              rcases hprop with h | h
              · exact absurd (hav ▸ h) hss
              · rw [hav]
                exact h
            cases active with
            | none =>
                rw [enrich_IsActive_found_none known _ p hss hfind, hfalse] at hact
                cases hact
            | some ac =>
                rw [enrich_IsActive_found_some known ac _ p hss hfind] at hact
                simp [keyMatches, hkeyeq, hfind, uuidMatches, hact]
  · have hk : profileSSIDName kp.2 = kp.1 := hkeys kp hkp
    have hfindk : knownFind? known kp.1 = some kp.2 :=
      knownFind?_of_mem_nodup known kp.1 kp.2 hnd hkp
    by_cases hss : (connectionProfileToWifiAP kp.2 active).SSID = ""
    · rw [enrich_of_hidden _ _ _ hss, synth_IsActive] at hact
      simp [keyMatches, hfindk, hact]
    · have hssk : (connectionProfileToWifiAP kp.2 active).SSID = kp.1 := by
        rw [synth_SSID, hk] at hss ⊢
        by_cases hdeg : kp.1 = "" ∨ kp.1 = "--"
        · exact absurd (by simp [hdeg]) hss
        · simp [hdeg]
      cases active with
      | none =>
          rw [enrich_IsActive_found_none known _ kp.2 hss (hssk ▸ hfindk),
            synth_IsActive] at hact
          simp [uuidMatches] at hact
      | some ac =>
          rw [enrich_IsActive_found_some known ac _ kp.2 hss (hssk ▸ hfindk)] at hact
          simp [keyMatches, hfindk, uuidMatches, hact]

theorem countP_keys_le_known (known : KnownMap) (active : Option ConnectionProfile)
    (ks : List String) (hnd : ks.Nodup) :
    ks.countP (keyMatches known active)
      ≤ known.countP (fun e => uuidMatches e.2 active) := by
  classical
  rw [List.countP_eq_length_filter, List.countP_eq_length_filter]
  have hSnd : (ks.filter (keyMatches known active)).Nodup := hnd.filter _
  rw [← List.toFinset_card_of_nodup hSnd]
  have hinj : (ks.filter (keyMatches known active)).toFinset.card
      ≤ (known.filter (fun e => uuidMatches e.2 active)).toFinset.card := by
    refine Finset.card_le_card_of_injOn
      (fun k => (k, (knownFind? known k).getD [])) ?_ ?_
    · intro k hk
      rw [List.mem_toFinset] at hk
      have hkm : keyMatches known active k = true := (List.mem_filter.mp hk).2
      cases hf : knownFind? known k with
      | none => simp [keyMatches, hf] at hkm
      | some p =>
          have hmem := knownFind?_mem_pairs known k p hf
          have hmu : uuidMatches p active = true := by
            simpa [keyMatches, hf] using hkm
          rw [List.mem_toFinset]
          simp only [hf, Option.getD_some]
          exact List.mem_filter.mpr ⟨hmem, by simpa using hmu⟩
    · intro k1 h1 k2 h2 heq
      exact congrArg Prod.fst heq
  exact le_trans hinj (List.toFinset_card_le _)

/-- C6 (amended): the number of active entries in any merged list is at
most the number of known-map entries whose profile UUID matches the
active connection; in particular at most one entry is active whenever at
most one known profile matches the active connection, provided no
scanned AP arrives pre-marked active and the known map is keyed by the
profile display SSIDs with distinct keys — the invariants the program
maintains.  (The separate counterexample shows the unconditional claim
is false: profiles without UUID fields all match an active connection
without a UUID field, yielding several active entries.) -/
theorem at_most_one_active (scanned : List wifiAP) (known : KnownMap)
    (active : Option ConnectionProfile) (showHidden : Bool) (enum : List wifiAP)
    (hscan : ∀ ap ∈ scanned, ap.IsActive = false)
    (hnd : (known.map Prod.fst).Nodup)
    (hkeys : ∀ e ∈ known, profileSSIDName e.2 = e.1)
    (hperm : enum.Perm (dedupedValues scanned known active)) :
    (mergeWithEnum known active showHidden enum).countP (fun ap => ap.IsActive)
      ≤ known.countP (fun e => uuidMatches e.2 active)
    ∧ (known.countP (fun e => uuidMatches e.2 active) ≤ 1 →
       (mergeWithEnum known active showHidden enum).countP
           (fun ap => ap.IsActive) ≤ 1) := by
  have hq : ∀ v b, processEntry known active showHidden v = some b →
      b.IsActive = true → (enrich known active v).IsActive = true := by
    intro v b hpe hb
    unfold processEntry at hpe
    by_cases hv : (!showHidden && v.IsHidden) = true
    · rw [if_pos hv] at hpe
      cases hpe
    · rw [if_neg hv] at hpe
      injection hpe with hpe
      rw [hpe]
      exact hb
  have h1 : (mergeWithEnum known active showHidden enum).countP
        (fun ap => ap.IsActive)
      = (enum.filterMap (processEntry known active showHidden)).countP
        (fun ap => ap.IsActive) := by
    unfold mergeWithEnum sortItems
    exact (List.perm_insertionSort _ _).countP_eq _
  have h2 := countP_filterMap_le (processEntry known active showHidden)
    (fun ap => ap.IsActive) (fun v => (enrich known active v).IsActive) hq enum
  have h3 : enum.countP (fun v => (enrich known active v).IsActive)
      = (dedupedValues scanned known active).countP
          (fun v => (enrich known active v).IsActive) :=
    hperm.countP_eq _
  have h4 : (dedupedValues scanned known active).countP
        (fun v => (enrich known active v).IsActive)
      = (buildDeduped scanned known active).countP
          (fun e => (enrich known active e.2).IsActive) := by
    unfold dedupedValues
    rw [List.countP_map]
    rfl
  have h5 : (buildDeduped scanned known active).countP
        (fun e => (enrich known active e.2).IsActive)
      ≤ (buildDeduped scanned known active).countP
          (fun e => keyMatches known active e.1) :=
    List.countP_mono_left (entry_active_imp scanned known active hscan hnd hkeys)
  have h6 : (buildDeduped scanned known active).countP
        (fun e => keyMatches known active e.1)
      = ((buildDeduped scanned known active).map Prod.fst).countP
          (keyMatches known active) := by
    rw [List.countP_map]
    rfl
  have h7 := countP_keys_le_known known active _
    (buildDeduped_keys_nodup scanned known active)
  have hmain : (mergeWithEnum known active showHidden enum).countP
        (fun ap => ap.IsActive)
      ≤ known.countP (fun e => uuidMatches e.2 active) := by
    rw [h1]
    refine le_trans h2 ?_
    rw [h3, h4]
    exact le_trans h5 (h6 ▸ h7)
  exact ⟨hmain, fun hm => le_trans hmain hm⟩

/-- Witness: with one scanned AP, the two known profiles A and B with
distinct UUIDs and profile A active, the merged list holds at most one
active entry. -/
theorem at_most_one_active_witness :
    (mergeWithEnum [("A", profA), ("B", profB)] (some profA) false
        (dedupedValues [scanC] [("A", profA), ("B", profB)] (some profA))).countP
        (fun ap => ap.IsActive)
      ≤ ([("A", profA), ("B", profB)] : KnownMap).countP
          (fun e => uuidMatches e.2 (some profA))
    ∧ (([("A", profA), ("B", profB)] : KnownMap).countP
          (fun e => uuidMatches e.2 (some profA)) ≤ 1 →
       (mergeWithEnum [("A", profA), ("B", profB)] (some profA) false
          (dedupedValues [scanC] [("A", profA), ("B", profB)] (some profA))).countP
          (fun ap => ap.IsActive) ≤ 1) :=
  at_most_one_active [scanC] [("A", profA), ("B", profB)] (some profA) false
    (dedupedValues [scanC] [("A", profA), ("B", profB)] (some profA))
    (by decide) (by decide) (by decide) (List.Perm.refl _)

/-- C6 counterexample: two known profiles without UUID fields and an
active connection without a UUID field make every uuid comparison
succeed, so the merged list holds two active entries: the invariant does
not hold for every combination of scanned list, known map and active
connection. -/
theorem two_active_entries :
    (getAllWifiItems [] [("A", noUuidA), ("B", noUuidB)]
        (some noUuidActive) false).countP (fun ap => ap.IsActive) = 2
    ∧ ¬ (getAllWifiItems [] [("A", noUuidA), ("B", noUuidB)]
        (some noUuidActive) false).countP (fun ap => ap.IsActive) ≤ 1 := by
  decide

-- ===========================================================================
-- Sort order (C4): the comparison chain is the lexicographic order on
-- sortKey, which gives asymmetry, transitivity and totality.
-- ===========================================================================

theorem strLt_iff (a b : String) : strLt a b = true ↔ a < b := by
  simp [strLt]

theorem lex_step_bool {γ : Type} [LinearOrder γ] (x y : Bool) (rest : Bool)
    (k1 k2 : γ) (hrest : x = y → (rest = true ↔ k1 < k2)) :
    (if x != y then x else rest) = true ↔ toLex (!x, k1) < toLex (!y, k2) := by
  have hft : ((false : Bool) < true) = True := eq_true (by decide)
  have htf : ((true : Bool) < false) = False := eq_false (by decide)
  have hff : ((false : Bool) < false) = False := eq_false (by decide)
  have htt : ((true : Bool) < true) = False := eq_false (by decide)
  rcases x <;> rcases y <;>
    simp [Prod.Lex.lt_iff, hrest, hft, htf, hff, htt]

theorem lex_step_bool_asc {γ : Type} [LinearOrder γ] (x y : Bool) (rest : Bool)
    (k1 k2 : γ) (hrest : x = y → (rest = true ↔ k1 < k2)) :
    (if x != y then !x else rest) = true ↔ toLex (x, k1) < toLex (y, k2) := by
  have hft : ((false : Bool) < true) = True := eq_true (by decide)
  have htf : ((true : Bool) < false) = False := eq_false (by decide)
  have hff : ((false : Bool) < false) = False := eq_false (by decide)
  have htt : ((true : Bool) < true) = False := eq_false (by decide)
  rcases x <;> rcases y <;>
    simp [Prod.Lex.lt_iff, hrest, hft, htf, hff, htt]

theorem lex_step_int {γ : Type} [LinearOrder γ] (x y : Int) (rest : Bool)
    (k1 k2 : γ) (hrest : x = y → (rest = true ↔ k1 < k2)) :
    (if x != y then decide (x > y) else rest) = true
      ↔ toLex (-x, k1) < toLex (-y, k2) := by
  by_cases hxy : x = y
  · simp [hxy, Prod.Lex.lt_iff, hrest hxy]
  · by_cases hgt : x > y
    · have : -x < -y := by omega
      simp [hxy, hgt, Prod.Lex.lt_iff, this]
    · have h1 : ¬(-x < -y) := by omega
      have h2 : ¬(-x = -y) := by omega
      simp [hxy, hgt, Prod.Lex.lt_iff, h1, h2]

theorem apLess_tail_iff (a b : wifiAP) :
    ((if a.Signal != b.Signal then decide (a.Signal > b.Signal)
      else if a.IsHidden != b.IsHidden then !a.IsHidden
      else strLt (lowerString a.DisplaySSID) (lowerString b.DisplaySSID)) = true)
    ↔ toLex (-a.Signal, toLex (a.IsHidden, lowerString a.DisplaySSID))
        < toLex (-b.Signal, toLex (b.IsHidden, lowerString b.DisplaySSID)) := by
  apply lex_step_int
  intro _
  apply lex_step_bool_asc
  intro _
  exact strLt_iff _ _

theorem apLess_iff (a b : wifiAP) : apLess a b = true ↔ sortKey a < sortKey b := by
  unfold apLess sortKey
  apply lex_step_bool
  intro _
  apply lex_step_bool
  intro hk
  by_cases hknown : a.IsKnown = true
  · have hbk : b.IsKnown = true := hk ▸ hknown
    rw [hknown, hbk]
    simp only [Bool.true_and]
    apply lex_step_bool
    intro _
    exact apLess_tail_iff a b
  · have haf : a.IsKnown = false := Bool.not_eq_true _ ▸ (eq_false_of_ne_true hknown)
    have hbf : b.IsKnown = false := hk ▸ haf
    rw [haf, hbf]
    simp only [Bool.false_and, if_false]
    have hff : ((false : Bool) < false) = False := eq_false (by decide)
    rw [Prod.Lex.lt_iff]
    simp only [hff, false_or, eq_self_iff_true, true_and]
    exact apLess_tail_iff a b

theorem apLe_iff (a b : wifiAP) : apLe a b = true ↔ sortKey a ≤ sortKey b := by
  constructor
  · intro hle
    have hfalse : apLess b a = false := by
      cases h : apLess b a
      · rfl
      · rw [apLe, h] at hle
        cases hle
    have : ¬ (sortKey b < sortKey a) := fun hlt => by
      rw [(apLess_iff b a).mpr hlt] at hfalse
      cases hfalse
    exact not_lt.mp this
  · intro hle
    have : apLess b a = false := by
      cases h : apLess b a
      · rfl
      · exact absurd ((apLess_iff b a).mp h) (not_lt.mpr hle)
    rw [apLe, this]
    rfl

instance apLeIsTotal : IsTotal wifiAP (fun a b => apLe a b = true) :=
  ⟨fun a b => by
    rcases le_total (sortKey a) (sortKey b) with h | h
    · exact Or.inl ((apLe_iff a b).mpr h)
    · exact Or.inr ((apLe_iff b a).mpr h)⟩

instance apLeIsTrans : IsTrans wifiAP (fun a b => apLe a b = true) :=
  ⟨fun a b c hab hbc =>
    (apLe_iff a c).mpr (le_trans ((apLe_iff a b).mp hab) ((apLe_iff b c).mp hbc))⟩

/-- C4: every list the merge produces is sorted by the strict comparison
chain: pairwise, no later entry is strictly apLess than an earlier one
(active first, then known, in-range before out-of-range among known
entries, higher signal first, named before hidden, case-insensitive SSID
ascending — the chain is the lexicographic order on sortKey); and on the
concrete input with active "A" signal 10, known "B" signal 90 and
unknown "C" signal 95, the output order is exactly [A, B, C]. -/
theorem merged_list_sorted :
    (∀ (known : KnownMap) (active : Option ConnectionProfile)
       (showHidden : Bool) (enum : List wifiAP),
       (mergeWithEnum known active showHidden enum).Pairwise
         (fun x y => apLess y x = false))
    ∧ (getAllWifiItems [scanB, scanC, scanA] [("A", profA), ("B", profB)]
        (some profA) false).map (fun ap => ap.SSID) = ["A", "B", "C"] := by
  constructor
  · intro known active showHidden enum
    have hs := List.sorted_insertionSort (fun x y => apLe x y = true)
      (enum.filterMap (processEntry known active showHidden))
    unfold mergeWithEnum sortItems
    refine List.Pairwise.imp ?_ hs
    intro x y hxy
    cases h : apLess y x
    · rfl
    · rw [apLe, h] at hxy
      cases hxy
  · decide

-- ===========================================================================
-- Session state machine claims
-- ===========================================================================

/-- C7: a failed connect result for a known-network no-password attempt
whose SSID matches the selected AP, delivered while the machine is in the
Connecting state, moves the machine to PasswordInput rather than
ConnectionResult, focuses the cleared password field and shows the
stored-credentials-failed message. -/
theorem known_failure_escalates_to_password (m : Model)
    (msg : ConnectionAttemptMsg) (hstate : m.state = .viewConnecting)
    (hfail : msg.success = false) (hknown : msg.wasKnownAttemptNoPsk = true)
    (hssid : m.selectedAP.SSID = msg.ssid) :
    (update m (.connectionAttemptMsg msg)).1.state = .viewPasswordInput
    ∧ (update m (.connectionAttemptMsg msg)).1.state ≠ .viewConnectionResult
    ∧ (update m (.connectionAttemptMsg msg)).1.passwordFocused = true
    ∧ (update m (.connectionAttemptMsg msg)).1.passwordValue = ""
    ∧ (update m (.connectionAttemptMsg msg)).1.connectionStatusMsg
        = "Stored credentials for " ++ m.selectedAP.DisplaySSID
          ++ " failed. Enter password:" := by
  simp [update, hfail, hknown, hssid, Model.setStatus]

/-- Witness: the escalation applied to a model connecting to the known
secured network "X" whose stored credentials are rejected. -/
theorem known_failure_escalates_to_password_witness :
    (update mConnectingX (.connectionAttemptMsg
        { ssid := "X", success := false, wasKnownAttemptNoPsk := true })).1.state
      = .viewPasswordInput
    ∧ (update mConnectingX (.connectionAttemptMsg
        { ssid := "X", success := false, wasKnownAttemptNoPsk := true })).1.state
      ≠ .viewConnectionResult
    ∧ (update mConnectingX (.connectionAttemptMsg
        { ssid := "X", success := false, wasKnownAttemptNoPsk := true })).1.passwordFocused
      = true
    ∧ (update mConnectingX (.connectionAttemptMsg
        { ssid := "X", success := false, wasKnownAttemptNoPsk := true })).1.passwordValue
      = ""
    ∧ (update mConnectingX (.connectionAttemptMsg
        { ssid := "X", success := false, wasKnownAttemptNoPsk := true })).1.connectionStatusMsg
      = "Stored credentials for " ++ mConnectingX.selectedAP.DisplaySSID
        ++ " failed. Enter password:" :=
  known_failure_escalates_to_password mConnectingX
    { ssid := "X", success := false, wasKnownAttemptNoPsk := true }
    (by decide) (by decide) (by decide) (by decide)

/-- C8 (amended): a timeout message delivered when the machine is not in
the Connecting state, or naming a different SSID than the selected AP, is
a no-op; in particular, immediately after any connect result has been
processed the machine has left the Connecting state, so the stale timeout
of that attempt is a no-op if it fires next.  Timeouts are keyed only by
the current state and SSID, so they cannot tell attempts to the same SSID
apart; the separate counterexample shows a stale timeout cancelling a
later attempt to the same SSID. -/
theorem stale_timeout_noop :
    (∀ (m : Model) (s : String),
      m.state ≠ .viewConnecting ∨ m.selectedAP.SSID ≠ s →
      update m (.connectionTimeoutMsg s) = (m, []))
    ∧ ∀ (m : Model) (msg : ConnectionAttemptMsg) (s : String),
        update (update m (.connectionAttemptMsg msg)).1 (.connectionTimeoutMsg s)
          = ((update m (.connectionAttemptMsg msg)).1, []) := by
  constructor
  · intro m s h
    rcases h with h | h <;> simp [update, h]
  · intro m msg s
    by_cases hsucc : msg.success
    · simp [update, hsucc, Model.setStatus]
    · by_cases hk : (msg.wasKnownAttemptNoPsk && m.selectedAP.SSID == msg.ssid) = true
      · simp [update, hsucc, hk, Model.setStatus]
      · simp [update, hsucc, hk, Model.setStatus]

/-- Witness: a timeout for "X" delivered on the network list is a no-op,
and a timeout delivered right after a successful connect result for "X"
is a no-op. -/
theorem stale_timeout_noop_witness :
    update mOldStatus (.connectionTimeoutMsg "X") = (mOldStatus, [])
    ∧ update (update mConnectingX
        (.connectionAttemptMsg { ssid := "X", success := true })).1
        (.connectionTimeoutMsg "X")
      = ((update mConnectingX
          (.connectionAttemptMsg { ssid := "X", success := true })).1, []) :=
  ⟨stale_timeout_noop.1 mOldStatus "X" (Or.inl (by decide)),
   stale_timeout_noop.2 mConnectingX { ssid := "X", success := true } "X"⟩

/-- C8 counterexample: attempt 1 to "X" succeeds and its result is
processed; the user goes back to the list and starts attempt 2 to the
same SSID "X", which is dispatched with its own 30-second timeout; the
stale timeout of attempt 1 then fires while attempt 2 is still in the
Connecting state, and cancels it: the machine reports a failed,
timed-out connection although attempt 2 received no result. -/
theorem stale_timeout_cancels_later_attempt :
    (update mConnectingX
        (.connectionAttemptMsg { ssid := "X", success := true })).1.state
      = .viewConnectionResult
    ∧ (update (update (update mConnectingX
          (.connectionAttemptMsg { ssid := "X", success := true })).1
          .keyBack).1 (.keyConnect (some apX))).1.state = .viewConnecting
    ∧ connectionTimeoutCmd "X" ∈ (update (update (update mConnectingX
          (.connectionAttemptMsg { ssid := "X", success := true })).1
          .keyBack).1 (.keyConnect (some apX))).2
    ∧ (update (update (update (update mConnectingX
          (.connectionAttemptMsg { ssid := "X", success := true })).1
          .keyBack).1 (.keyConnect (some apX))).1
          (.connectionTimeoutMsg "X")).1.state = .viewConnectionResult
    ∧ (update (update (update (update mConnectingX
          (.connectionAttemptMsg { ssid := "X", success := true })).1
          .keyBack).1 (.keyConnect (some apX))).1
          (.connectionTimeoutMsg "X")).1.lastConnectionWasSuccessful = false
    ∧ (update (update (update (update mConnectingX
          (.connectionAttemptMsg { ssid := "X", success := true })).1
          .keyBack).1 (.keyConnect (some apX))).1
          (.connectionTimeoutMsg "X")).1.connectionStatusMsg
        = "Connection to X timed out" := by
  decide

/-- C9 (amended): a clear-status event clears the transient status
message exactly when the view state at delivery is NetworksList — with
no check that the state is unchanged or that the message is still the
one whose timer fired — and the clear timer is the fixed 3-second tick. -/
theorem clear_status_characterization :
    (∀ m : Model,
      update m .clearStatusMsg
        = ({ m with connectionStatusMsg :=
              if m.state = .viewNetworksList then "" else m.connectionStatusMsg },
           []))
    ∧ clearStatusAfterDelay = .clearStatusAfter 3 := by
  constructor
  · intro m
    by_cases h : m.state = .viewNetworksList <;>
      simp [update, Model.clearStatus, h]
  · rfl

/-- C9 counterexample: with an earlier message "old status" on screen and
its 3-second clear timer still pending, toggling hidden networks sets the
newer message "Showing unnamed networks" and schedules its own clear
timer, the view state staying NetworksList throughout; the stale clear
event from the earlier timer then erases the newer message. -/
theorem stale_clear_erases_newer_message :
    (update mOldStatus .keyToggleHidden).1.connectionStatusMsg
      = "Showing unnamed networks"
    ∧ (update mOldStatus .keyToggleHidden).2 = [clearStatusAfterDelay]
    ∧ (update mOldStatus .keyToggleHidden).1.state = .viewNetworksList
    ∧ (update (update mOldStatus .keyToggleHidden).1
        .clearStatusMsg).1.connectionStatusMsg = "" := by
  decide

end NMTui
